import Mathlib

/-!
Verification development for the codeagent-scanner job orchestration and
report-aggregation subsystem.  Definitions are shallow embeddings of the
Python source files:

  * `pipeline/report_schema.py` — data model, `ReportBuilder`
  * `pipeline/orchestrator.py`  — `JobOrchestrator`
  * `analyzers/base.py`         — `_parse_severity`, `_normalize_file_path`
  * `analyzers/bandit_runner.py`— `_determine_bandit_severity`

Machine integers are `Nat`, Python dicts keyed by job id are association
lists, fallible code returns `Option`/`Except`, and the filesystem
("logs/<id>.json", "reports/<id>.json") is a pair of key/value maps carried
in the orchestrator state.
-/

namespace Scanner

/-- `JobStatus` enum from `report_schema.py`. -/
inductive JobStatus where
  | queued | running | completed | failed | canceled | expired
deriving DecidableEq

/-- `JobPhase` enum from `report_schema.py`. -/
inductive JobPhase where
  | clone | analyzeSemgrep | analyzeBandit | analyzeDepcheck | merge | write
deriving DecidableEq

/-- `Severity` enum (identical member sets in `report_schema.py` and
`analyzers/base.py`). -/
inductive Severity where
  | critical | high | medium | low
deriving DecidableEq

/-- `.value` of `JobStatus` (the `str`-enum payload). -/
def JobStatus.value : JobStatus → String
  | .queued => "queued"
  | .running => "running"
  | .completed => "completed"
  | .failed => "failed"
  | .canceled => "canceled"
  | .expired => "expired"

/-- `JobStatus(raw)` — `some` on a valid payload, `none` models the
`ValueError` a bad payload raises. -/
def jobStatusFromValue (s : String) : Option JobStatus :=
  if s = "queued" then some .queued
  else if s = "running" then some .running
  else if s = "completed" then some .completed
  else if s = "failed" then some .failed
  else if s = "canceled" then some .canceled
  else if s = "expired" then some .expired
  else none

/-- `.value` of `JobPhase`. -/
def JobPhase.value : JobPhase → String
  | .clone => "clone"
  | .analyzeSemgrep => "analyze:semgrep"
  | .analyzeBandit => "analyze:bandit"
  | .analyzeDepcheck => "analyze:depcheck"
  | .merge => "merge"
  | .write => "write"

/-- `JobPhase(raw)` — `none` models the `ValueError` on an unknown payload. -/
def jobPhaseFromValue (s : String) : Option JobPhase :=
  if s = "clone" then some .clone
  else if s = "analyze:semgrep" then some .analyzeSemgrep
  else if s = "analyze:bandit" then some .analyzeBandit
  else if s = "analyze:depcheck" then some .analyzeDepcheck
  else if s = "merge" then some .merge
  else if s = "write" then some .write
  else none

/-- `JobProgress` dataclass. -/
structure JobProgress where
  phase : JobPhase
  percent : Nat
deriving DecidableEq

/-- `JobInfo` dataclass. -/
structure JobInfo where
  job_id : String
  status : JobStatus
  progress : Option JobProgress
  submitted_at : String
  started_at : Option String
  finished_at : Option String
  error : Option String
deriving DecidableEq

/-- The parsed-JSON object written by `_save_job_state`
(`json.dump(job_info.to_dict(), f)`).  Keys absent from the JSON are
`none`; `JobInfo.to_dict` only emits `progress` when it is set. -/
structure JobDict where
  job_id : String
  status : String
  submitted_at : String
  started_at : Option String
  finished_at : Option String
  error : Option String
  progress : Option (String × Nat)
deriving DecidableEq

/-- `JobInfo.to_dict` from `report_schema.py` (lines 171-184). -/
def JobInfo.to_dict (ji : JobInfo) : JobDict :=
  { job_id := ji.job_id
    status := ji.status.value
    submitted_at := ji.submitted_at
    started_at := ji.started_at
    finished_at := ji.finished_at
    error := ji.error
    progress := ji.progress.map (fun p => (p.phase.value, p.percent)) }

/-- Body of `JobOrchestrator._load_job_state` after the JSON parse
(orchestrator.py lines 449-466): rebuilds a `JobInfo` from the dict;
`none` models the `except` branch returning `None` when the enum
constructors raise. -/
def load_job_state (d : JobDict) : Option JobInfo :=
  match jobStatusFromValue d.status with
  | none => none
  | some st =>
    match d.progress with
    | none =>
        some { job_id := d.job_id, status := st, progress := none,
               submitted_at := d.submitted_at, started_at := d.started_at,
               finished_at := d.finished_at, error := d.error }
    | some (phv, pct) =>
        match jobPhaseFromValue phv with
        | none => none
        | some ph =>
            some { job_id := d.job_id, status := st,
                   progress := some { phase := ph, percent := pct },
                   submitted_at := d.submitted_at, started_at := d.started_at,
                   finished_at := d.finished_at, error := d.error }

/-- Python `str.lower()`, modelled over the character list (ASCII case map,
as `Char.toLower` provides). -/
def toLowerStr (s : String) : String := ⟨s.data.map Char.toLower⟩

/-- Python `str.upper()`. -/
def toUpperStr (s : String) : String := ⟨s.data.map Char.toUpper⟩

/-- Python `str.strip()`: drop whitespace from both ends. -/
def stripStr (s : String) : String :=
  ⟨((s.data.dropWhile Char.isWhitespace).reverse.dropWhile Char.isWhitespace).reverse⟩

/-- `BaseAnalyzer._parse_severity`'s `severity_map` lookup
(analyzers/base.py lines 125-139), `none` when the key is absent. -/
def severity_map_lookup (n : String) : Option Severity :=
  if n = "critical" then some .critical
  else if n = "high" then some .high
  else if n = "medium" then some .medium
  else if n = "low" then some .low
  else if n = "info" then some .low
  else if n = "warning" then some .medium
  else if n = "error" then some .high
  else if n = "1" then some .low
  else if n = "2" then some .medium
  else if n = "3" then some .high
  else if n = "4" then some .critical
  else none

/-- `BaseAnalyzer._parse_severity` (analyzers/base.py lines 123-142):
`severity_map.get(raw_severity.lower().strip(), Severity.MEDIUM)`. -/
def parse_severity (raw : String) : Severity :=
  (severity_map_lookup (stripStr (toLowerStr raw))).getD .medium

/-- The `finding` keys `BanditAnalyzer._determine_bandit_severity` reads
(bandit_runner.py lines 192-240); a `none` field models an absent dict key,
so `finding.get(key, default)` becomes `Option.getD`. -/
structure BanditFinding where
  issue_severity : Option String
  test_id : Option String
deriving DecidableEq

/-- The `severity_map.get(raw_severity.upper(), Severity.MEDIUM)` lookup of
`_determine_bandit_severity` (bandit_runner.py lines 198-204). -/
def bandit_map_severity (raw : String) : Severity :=
  let u := toUpperStr raw
  if u = "LOW" then .low
  else if u = "MEDIUM" then .medium
  else if u = "HIGH" then .high
  else .medium

/-- The `critical_tests` set of `_determine_bandit_severity`
(bandit_runner.py lines 208-235). -/
def bandit_critical_tests : List String :=
  ["B102", "B103", "B104", "B105", "B106", "B107", "B108", "B201",
   "B501", "B502", "B503", "B504", "B505", "B506", "B601", "B602",
   "B603", "B604", "B605", "B606", "B607", "B608", "B609", "B701",
   "B702", "B703"]

/-- `BanditAnalyzer._determine_bandit_severity` (bandit_runner.py lines
192-240): map the raw severity, then upgrade `high` to `critical` when the
(uppercased) test id is in the curated list. -/
def determine_bandit_severity (f : BanditFinding) : Severity :=
  let raw := f.issue_severity.getD "MEDIUM"
  let severity := bandit_map_severity raw
  let testId := toUpperStr (f.test_id.getD "")
  if bandit_critical_tests.contains testId ∧ severity = .high then .critical
  else severity

/-- Rank for comparing canonical severities (low < medium < high < critical). -/
def sevRank : Severity → Nat
  | .low => 0
  | .medium => 1
  | .high => 2
  | .critical => 3

/-- Python `s.split('/')` over the character list (posixpath splits with
empty pieces kept; callers filter them out). -/
def splitOnSlash : List Char → List (List Char)
  | [] => [[]]
  | x :: xs =>
    let rest := splitOnSlash xs
    if x = '/' then [] :: rest
    else
      match rest with
      | [] => [[x]]
      | y :: ys => (x :: y) :: ys

/-- `[x for x in p.split(sep) if x]` — the component list posixpath.relpath
builds for each argument. -/
def path_parts (p : List Char) : List (List Char) :=
  (splitOnSlash p).filter (fun piece => piece ≠ [])

/-- `sep.join(...)` over slash-free components (posixpath.join degenerates
to interleaving `'/'` when no component is absolute). -/
def join_slash : List (List Char) → List Char
  | [] => []
  | [x] => x
  | x :: xs => x ++ '/' :: join_slash xs

/-- `len(commonprefix([a, b]))` on two component lists. -/
def commonPrefixLen : List (List Char) → List (List Char) → Nat
  | x :: xs, y :: ys => if x = y then commonPrefixLen xs ys + 1 else 0
  | _, _ => 0

/-- `s.startswith('/')` on the character list. -/
def isabsC : List Char → Bool
  | [] => false
  | c :: _ => c == '/'

/-- `os.path.isabs` on POSIX: `s.startswith('/')`. -/
def isabs (s : String) : Bool := isabsC s.data

/-- `os.path.relpath(path, start)` on POSIX, for arguments that are already
absolute paths without `.`/`..` segments (so `abspath` is component
split/filter): drop the common component prefix, climb with `..` for each
remaining `start` component, return `.` when nothing is left. -/
def relpathC (path start : List Char) : List Char :=
  let pl := path_parts path
  let sl := path_parts start
  let i := commonPrefixLen pl sl
  let rel := List.replicate (sl.length - i) ['.', '.'] ++ pl.drop i
  if rel = [] then ['.'] else join_slash rel

/-- `BaseAnalyzer._normalize_file_path` (analyzers/base.py lines 144-154):
relative paths pass through; absolute paths go through
`os.path.relpath(file_path, workspace_path)`.  On POSIX `relpath` raises
`ValueError` only for an empty `path` argument, which `os.path.isabs`
already excludes, so the `except ValueError` passthrough branch of the
source is unreachable in this model. -/
def normalize_file_path (file_path workspace_path : String) : String :=
  if isabs file_path then ⟨relpathC file_path.data workspace_path.data⟩
  else file_path

/-- Normalized `Issue` (structurally identical dataclasses in
`analyzers/base.py` and `report_schema.py`; one Lean structure embeds
both). -/
structure Issue where
  tool : String
  type : String
  message : String
  severity : Severity
  file : String
  line : Nat
  rule_id : String
  suggestion : Option String
deriving DecidableEq

/-- `AnalyzerResult` dataclass (analyzers/base.py lines 48-55). -/
structure AnalyzerResult where
  tool_name : String
  success : Bool
  issues : List Issue
  duration_ms : Nat
  error_message : Option String
deriving DecidableEq

/-- `RepoInfo` dataclass. -/
structure RepoInfo where
  source : String
  url : Option String
  ref : Option String
  commit : Option String
deriving DecidableEq

/-- `SeveritySummary` dataclass (report_schema.py lines 82-104). -/
structure SeveritySummary where
  critical : Nat := 0
  high : Nat := 0
  medium : Nat := 0
  low : Nat := 0
deriving DecidableEq

/-- `SeveritySummary.total`. -/
def SeveritySummary.total (s : SeveritySummary) : Nat :=
  s.critical + s.high + s.medium + s.low

/-- `SeveritySummary.add_severity`: increment the counter of the given
severity (the if/elif chain covers all four members). -/
def SeveritySummary.add_severity (s : SeveritySummary) (sev : Severity) : SeveritySummary :=
  match sev with
  | .critical => { s with critical := s.critical + 1 }
  | .high => { s with high := s.high + 1 }
  | .medium => { s with medium := s.medium + 1 }
  | .low => { s with low := s.low + 1 }

/-- `FileIssues` dataclass. -/
structure FileIssues where
  path : String
  issues : List Issue
deriving DecidableEq

/-- `ReportMetadata` dataclass. -/
structure ReportMetadata where
  tools : List String
  repo : RepoInfo
  generated_at : String
  duration_ms : Nat
  labels : List String
deriving DecidableEq

/-- `Report` dataclass. -/
structure Report where
  job_id : String
  meta : ReportMetadata
  summary : SeveritySummary
  files : List FileIssues
deriving DecidableEq

/-- Mutable state of `ReportBuilder` (report_schema.py lines 384-389). -/
structure BuilderState where
  issues : List Issue
  tools_used : List String
deriving DecidableEq

/-- The per-issue reconstruction inside `ReportBuilder.add_analyzer_result`
(report_schema.py lines 404-417).  In the source the `Issue(...)` call sits
in a `try`; with both `Issue` dataclasses sharing the same field types and
the two `Severity` enums sharing the same payload strings,
`Severity(analyzer_issue.severity.value)` always succeeds, so the
conversion is total. -/
def convertIssue (i : Issue) : Issue :=
  { tool := i.tool, type := i.type, message := i.message,
    severity := i.severity, file := i.file, line := i.line,
    rule_id := i.rule_id, suggestion := i.suggestion }

/-- `ReportBuilder.add_analyzer_result` (report_schema.py lines 391-419):
on `success`, record the tool name and append the converted issues;
otherwise contribute nothing. -/
def add_analyzer_result (b : BuilderState) (r : AnalyzerResult) : BuilderState :=
  if r.success then
    { issues := b.issues ++ r.issues.map convertIssue,
      tools_used := b.tools_used ++ [r.tool_name] }
  else b

/-- Insertion step of the string sort used to model Python `sorted` on the
grouped file paths. -/
def insertSorted (x : String) : List String → List String
  | [] => [x]
  | y :: ys => if x ≤ y then x :: y :: ys else y :: insertSorted x ys

/-- Python `sorted(...)` on distinct keys: any comparison sort; insertion
sort is used here. -/
def sortStrings : List String → List String
  | [] => []
  | x :: xs => insertSorted x (sortStrings xs)

/-- The file-grouping step of `ReportBuilder.build_report`
(report_schema.py lines 431-442): an insertion-ordered dict keyed by
`issue.file`, then `sorted(files_dict.items())`. -/
def group_by_file (issues : List Issue) : List FileIssues :=
  let paths := sortStrings (issues.map (fun i => i.file)).dedup
  paths.map (fun p => { path := p, issues := issues.filter (fun i => i.file = p) })

/-- `ReportBuilder.build_report` (report_schema.py lines 421-464).  The
wall-clock quantities (`generated_at`, `duration_ms`) are taken as
parameters. -/
def build_report (b : BuilderState) (job_id : String) (repo : RepoInfo)
    (labels : List String) (generated_at : String) (duration_ms : Nat) : Report :=
  let files := group_by_file b.issues
  let summary := b.issues.foldl (fun s i => s.add_severity i.severity) {}
  { job_id := job_id,
    meta := { tools := b.tools_used, repo := repo, generated_at := generated_at,
              duration_ms := duration_ms, labels := labels },
    summary := summary,
    files := files }

/-- Lookup in a Python dict modelled as an association list. -/
def dictGet {α : Type} (l : List (String × α)) (k : String) : Option α :=
  match l with
  | [] => none
  | (k', v) :: t => if k' = k then some v else dictGet t k

/-- `d[k] = v` on a Python dict: overwrite any existing binding. -/
def dictInsert {α : Type} (l : List (String × α)) (k : String) (v : α) :
    List (String × α) :=
  (k, v) :: l.filter (fun p => p.1 ≠ k)

/-- `d.pop(k, None)` / `os.remove` of the keyed file. -/
def dictRemove {α : Type} (l : List (String × α)) (k : String) :
    List (String × α) :=
  l.filter (fun p => p.1 ≠ k)

/-- The state a `JobOrchestrator` instance carries that the claims are
about: the in-memory `active_jobs` dict, the persisted per-job state files
(`storage/logs/<id>.json`) and the persisted reports
(`storage/reports/<id>.json`), the latter two modelled as key/value maps. -/
structure OrchState where
  activeJobs : List (String × JobInfo)
  savedStates : List (String × JobDict)
  savedReports : List (String × Report)
deriving DecidableEq

/-- The Python exceptions the embedded orchestrator operations can raise. -/
inductive PyErr where
  /-- `UnboundLocalError` (a `NameError` subclass): `_update_job_status`
  reads the local `job_info` that was never bound because `job_id` was not
  in `active_jobs`. -/
  | unboundLocalJobInfo
deriving DecidableEq

/-- `JobOrchestrator.submit_job` (orchestrator.py lines 61-104): build a
Queued `JobInfo` with no progress, store it in `active_jobs`, persist it
(`_save_job_state`) and return `(job_id, job_info)`.  The generated uuid
and `datetime.now()` are parameters; thread start is modelled by the caller
invoking `execute_job` later. -/
def submit_job (s : OrchState) (job_id now : String) : OrchState × JobInfo :=
  let ji : JobInfo :=
    { job_id := job_id, status := .queued, progress := none,
      submitted_at := now, started_at := none, finished_at := none,
      error := none }
  ({ s with activeJobs := dictInsert s.activeJobs job_id ji,
            savedStates := dictInsert s.savedStates job_id ji.to_dict }, ji)

/-- `JobOrchestrator.get_job_status` (orchestrator.py lines 106-115): the
in-memory entry if present, else `_load_job_state` from disk. -/
def get_job_status (s : OrchState) (job_id : String) : Option JobInfo :=
  match dictGet s.activeJobs job_id with
  | some ji => some ji
  | none =>
    match dictGet s.savedStates job_id with
    | some d => load_job_state d
    | none => none

/-- `JobOrchestrator.cancel_job` (orchestrator.py lines 146-163): only a
Queued or Running job is moved to Canceled (with `finished_at` stamped and
the state persisted); otherwise return `False`. -/
def cancel_job (s : OrchState) (job_id now : String) : OrchState × Bool :=
  match dictGet s.activeJobs job_id with
  | none => (s, false)
  | some ji =>
    if ji.status = .queued ∨ ji.status = .running then
      let ji := { ji with status := .canceled, finished_at := some now }
      ({ s with activeJobs := dictInsert s.activeJobs job_id ji,
                savedStates := dictInsert s.savedStates job_id ji.to_dict },
       true)
    else (s, false)

/-- `JobOrchestrator._update_job_status` (orchestrator.py lines 398-411):
if the job is active, overwrite `status` unconditionally (no transition
check) and set whichever of `started_at`/`finished_at`/`error` were passed
as kwargs, then persist; if the job is NOT active, the local `job_info`
is never bound and the trailing `self._save_job_state(job_id, job_info)`
raises `UnboundLocalError`. -/
def update_job_status (s : OrchState) (job_id : String) (st : JobStatus)
    (startedAt finishedAt errMsg : Option String) : Except PyErr OrchState :=
  match dictGet s.activeJobs job_id with
  | some ji =>
    let ji :=
      { ji with
        status := st,
        started_at := match startedAt with | some v => some v | none => ji.started_at,
        finished_at := match finishedAt with | some v => some v | none => ji.finished_at,
        error := match errMsg with | some v => some v | none => ji.error }
    .ok { s with activeJobs := dictInsert s.activeJobs job_id ji,
                 savedStates := dictInsert s.savedStates job_id ji.to_dict }
  | none => .error .unboundLocalJobInfo

/-- `JobOrchestrator._update_job_progress` (orchestrator.py lines 413-425):
set the in-memory progress if the job is active (no disk write, no raise —
the local is only read inside the guarded block). -/
def update_job_progress (s : OrchState) (job_id : String) (phase : JobPhase)
    (percent : Nat) : OrchState :=
  match dictGet s.activeJobs job_id with
  | some ji =>
    let ji := { ji with progress := some { phase := phase, percent := percent } }
    { s with activeJobs := dictInsert s.activeJobs job_id ji }
  | none => s

/-- `JobOrchestrator._save_report` (orchestrator.py lines 389-396): write
`reports/<job_id>.json`. -/
def save_report (s : OrchState) (job_id : String) (r : Report) : OrchState :=
  { s with savedReports := dictInsert s.savedReports job_id r }

/-- `JobOrchestrator.cleanup_job` (orchestrator.py lines 191-210): remove
the persisted job-state file and the in-memory entry (workspace removal has
no counterpart in this state). -/
def cleanup_job (s : OrchState) (job_id : String) : OrchState :=
  { s with savedStates := dictRemove s.savedStates job_id,
           activeJobs := dictRemove s.activeJobs job_id }

/-- `getattr(JobPhase, f"ANALYZE_{analyzer_name.upper()}", JobPhase.MERGE)`
(orchestrator.py line 340). -/
def analyze_phase (name : String) : JobPhase :=
  let u := toUpperStr name
  if u = "SEMGREP" then .analyzeSemgrep
  else if u = "BANDIT" then .analyzeBandit
  else if u = "DEPCHECK" then .analyzeDepcheck
  else .merge

/-- The result-collection loop of `JobOrchestrator._run_analyzers`
(orchestrator.py lines 352-362): each dispatched analyzer's
`future.result(timeout=600)` either returns an `AnalyzerResult` (kept, in
dispatch order) or raises (timeout or any exception — logged and skipped,
the loop continues with the siblings). -/
def run_analyzers_collect (outcomes : List (String × Except String AnalyzerResult)) :
    List AnalyzerResult :=
  outcomes.filterMap (fun p => p.2.toOption)

/-- The per-job environment `_execute_job` interacts with: the outcome of
source fetching, and for each dispatched analyzer (in dispatch order) the
outcome of its future — `Except.error` models an exception or timeout
propagating out of `future.result`. -/
structure ExecEnv where
  fetch : Except String String
  outcomes : List (String × Except String AnalyzerResult)

/-- `JobOrchestrator._execute_job` (orchestrator.py lines 212-269),
step-for-step: mark Running, progress clone/10, fetch (an exception lands
in the `except` branch, which marks the job Failed), progress clone/20,
per-analyzer progress updates during dispatch, collect analyzer results
(individual failures swallowed), progress merge/85, build the report,
progress write/95, persist the report, mark Completed.  The body contains
NO cancellation check at any phase boundary, exactly as in the source.
Wall-clock strings and report-building parameters are passed in. -/
def execute_job (s : OrchState) (job_id : String) (env : ExecEnv)
    (startedAt finishedAt generatedAt : String) (repo : RepoInfo)
    (labels : List String) (duration_ms : Nat) : Except PyErr OrchState :=
  match update_job_status s job_id .running (some startedAt) none none with
  | .error e => .error e
  | .ok s =>
    let s := update_job_progress s job_id .clone 10
    match env.fetch with
    | .error msg =>
      match update_job_status s job_id .failed none (some finishedAt) (some msg) with
      | .error e => .error e
      | .ok s => .ok s
    | .ok _ws =>
      let s := update_job_progress s job_id .clone 20
      let names := env.outcomes.map Prod.fst
      let s := names.enum.foldl
        (fun acc p =>
          update_job_progress acc job_id (analyze_phase p.2)
            (30 + 50 * p.1 / names.length)) s
      let results := run_analyzers_collect env.outcomes
      let s := update_job_progress s job_id .merge 85
      let report := build_report (results.foldl add_analyzer_result ⟨[], []⟩)
        job_id repo labels generatedAt duration_ms
      let s := update_job_progress s job_id .write 95
      let s := save_report s job_id report
      update_job_status s job_id .completed none (some finishedAt) none

/-! ## Helper lemmas -/

theorem dictGet_insert_self {α : Type} (l : List (String × α)) (k : String) (v : α) :
    dictGet (dictInsert l k v) k = some v := by
  simp [dictGet, dictInsert]

theorem jobStatus_value_roundtrip (st : JobStatus) :
    jobStatusFromValue st.value = some st := by
  cases st <;> rfl

theorem jobPhase_value_roundtrip (ph : JobPhase) :
    jobPhaseFromValue ph.value = some ph := by
  cases ph <;> rfl

theorem convertIssue_id (i : Issue) : convertIssue i = i := rfl

/-! ## Claim theorems -/

/-- C9: persisting a `JobInfo` through `JobInfo.to_dict` (the object
`_save_job_state` serializes as JSON) and reloading it through the
reconstruction in `_load_job_state` reproduces an equal in-memory
`JobInfo` — every field, including the optional progress phase/percent
and timestamps, survives the round trip. -/
theorem c9_jobinfo_roundtrip (ji : JobInfo) :
    load_job_state ji.to_dict = some ji := by
  obtain ⟨id, st, pr, sub, sa, fa, er⟩ := ji
  cases pr with
  | none =>
    simp [JobInfo.to_dict, load_job_state, jobStatus_value_roundtrip]
  | some p =>
    obtain ⟨ph, pct⟩ := p
    simp [JobInfo.to_dict, load_job_state, jobStatus_value_roundtrip,
          jobPhase_value_roundtrip]

/-- C10: calling `_update_job_status` with a `job_id` that is not in
`active_jobs` raises (`UnboundLocalError`, a `NameError` subclass: the
local `job_info` is never bound before `_save_job_state(job_id, job_info)`
runs) instead of being a no-op. -/
theorem c10_update_status_raises (s : OrchState) (job_id : String)
    (st : JobStatus) (a b c : Option String)
    (h : dictGet s.activeJobs job_id = none) :
    update_job_status s job_id st a b c = .error .unboundLocalJobInfo := by
  unfold update_job_status
  rw [h]

theorem c10_witness :
    update_job_status ⟨[], [], []⟩ "job-x" JobStatus.running none none none
      = .error .unboundLocalJobInfo :=
  c10_update_status_raises ⟨[], [], []⟩ "job-x" JobStatus.running none none none rfl

/-- C6: `_parse_severity` is total into the 4-level canonical scale (its
codomain is `Severity`), and any raw severity whose lowercased, stripped
form is not a key of `severity_map` is mapped to `medium` — never dropped
and never mapped to `low`. -/
theorem c6_unknown_severity_defaults_medium (raw : String)
    (h : severity_map_lookup (stripStr (toLowerStr raw)) = none) :
    parse_severity raw = Severity.medium ∧ parse_severity raw ≠ Severity.low := by
  unfold parse_severity
  rw [h]
  exact ⟨rfl, by decide⟩

theorem c6_witness :
    parse_severity "WeIrD " = Severity.medium ∧
      parse_severity "WeIrD " ≠ Severity.low :=
  c6_unknown_severity_defaults_medium "WeIrD " (by decide)

theorem bandit_map_ne_critical (raw : String) :
    bandit_map_severity raw ≠ Severity.critical := by
  unfold bandit_map_severity
  dsimp only
  split_ifs <;> decide

/-- C5: for every Bandit finding, `_determine_bandit_severity` returns a
severity at least as high (in the rank low < medium < high < critical) as
the one `severity_map` assigns to the raw `issue_severity`, and it returns
`critical` exactly when that mapped severity is `high` and the uppercased
test id is in the curated `critical_tests` list. -/
theorem c5_bandit_upgrade_only_escalates (f : BanditFinding) :
    sevRank (bandit_map_severity (f.issue_severity.getD "MEDIUM"))
        ≤ sevRank (determine_bandit_severity f) ∧
      (determine_bandit_severity f = Severity.critical ↔
        bandit_map_severity (f.issue_severity.getD "MEDIUM") = Severity.high ∧
          bandit_critical_tests.contains (toUpperStr (f.test_id.getD "")) = true) := by
  unfold determine_bandit_severity
  dsimp only
  by_cases h :
      bandit_critical_tests.contains (toUpperStr (f.test_id.getD "")) = true ∧
        bandit_map_severity (f.issue_severity.getD "MEDIUM") = Severity.high
  · rw [if_pos h]
    refine ⟨?_, ?_⟩
    · rw [h.2]; decide
    · exact ⟨fun _ => ⟨h.2, h.1⟩, fun _ => rfl⟩
  · rw [if_neg h]
    refine ⟨le_refl _, ?_⟩
    constructor
    · intro hc
      exact absurd hc (bandit_map_ne_critical _)
    · intro hc
      exact absurd ⟨hc.2, hc.1⟩ h

/-- C1: evaluation of the embedded code at the failing interleaving.  A job
is submitted and then canceled (legally: Queued → Canceled, `cancel_job`
returns `True`); the job's execution thread then runs `_execute_job`, whose
`_update_job_status` calls perform no transition check, so the job is moved
out of the terminal Canceled state and finishes as Completed — the claimed
invariant (`no sequence of submit/cancel/execute steps ever moves a job
out of Canceled`) fails on the code. -/
theorem c1_canceled_job_overwritten :
    (cancel_job (submit_job ⟨[], [], []⟩ "job-1" "t0").1 "job-1" "t1").2 = true ∧
      (dictGet (cancel_job (submit_job ⟨[], [], []⟩ "job-1" "t0").1 "job-1" "t1").1.activeJobs
          "job-1").map JobInfo.status = some JobStatus.canceled ∧
      ((execute_job (cancel_job (submit_job ⟨[], [], []⟩ "job-1" "t0").1 "job-1" "t1").1
          "job-1" ⟨Except.ok "ws", []⟩ "t2" "t3" "t3" ⟨"github", none, none, none⟩ [] 0).toOption.bind
        fun st => (dictGet st.activeJobs "job-1").map JobInfo.status)
        = some JobStatus.completed := by
  decide

/-- C2: evaluation of the embedded code at the failing interleaving.  A job
is canceled right after submission (before its execution thread reaches any
phase boundary); `_execute_job` contains no cancellation check, so the
thread runs every phase and `_save_report` persists a report for the
canceled job — the claimed "never" property fails on the code. -/
theorem c2_report_persisted_for_canceled :
    (cancel_job (submit_job ⟨[], [], []⟩ "job-2" "t0").1 "job-2" "t1").2 = true ∧
      (dictGet (cancel_job (submit_job ⟨[], [], []⟩ "job-2" "t0").1 "job-2" "t1").1.activeJobs
          "job-2").map JobInfo.status = some JobStatus.canceled ∧
      ((execute_job (cancel_job (submit_job ⟨[], [], []⟩ "job-2" "t0").1 "job-2" "t1").1
          "job-2" ⟨Except.ok "ws", []⟩ "t2" "t3" "t3" ⟨"github", none, none, none⟩ [] 0).toOption.bind
        fun st => dictGet st.savedReports "job-2").isSome = true := by
  decide

/-- C8, counterexample: `submit_job` creates the `JobInfo` with
`progress=None`, so `get_job_status` immediately after submit returns a
`JobInfo` whose progress is null — refuting "status is Queued or Running
with phase = Fetch, never a null/undefined progress value" (there is also
no `Fetch` member in `JobPhase`; the fetch phase is `clone`). -/
theorem c8_counterexample :
    (get_job_status (submit_job ⟨[], [], []⟩ "job-8" "t0").1 "job-8").map
        (fun ji => ji.progress) = some none := by
  decide

/-- C8, amended: `get_job_status` immediately after submit returns a
(non-null) `JobInfo` — the one `submit_job` created — whose status is
Queued; its progress is `None` until the execution thread's first progress
update, which sets phase `clone` (the fetch phase) with percent 10. -/
theorem c8_status_after_submit (s : OrchState) (job_id now : String) :
    let p := submit_job s job_id now
    get_job_status p.1 job_id = some p.2 ∧
      p.2.status = JobStatus.queued ∧
      p.2.progress = none ∧
      (get_job_status (update_job_progress p.1 job_id .clone 10) job_id).map
          (fun ji => ji.progress)
        = some (some { phase := JobPhase.clone, percent := 10 }) := by
  refine ⟨?_, rfl, rfl, ?_⟩
  · unfold get_job_status submit_job
    rw [dictGet_insert_self]
  · unfold update_job_progress
    rw [show dictGet (submit_job s job_id now).1.activeJobs job_id
          = some (submit_job s job_id now).2 from dictGet_insert_self ..]
    unfold get_job_status
    rw [dictGet_insert_self]
    rfl

theorem add_severity_total (s : SeveritySummary) (sev : Severity) :
    (s.add_severity sev).total = s.total + 1 := by
  cases sev <;> simp [SeveritySummary.add_severity, SeveritySummary.total] <;> omega

theorem foldl_add_severity_total (l : List Issue) :
    ∀ s0 : SeveritySummary,
      (l.foldl (fun s i => s.add_severity i.severity) s0).total
        = s0.total + l.length := by
  induction l with
  | nil => intro s0; simp
  | cons i t ih =>
    intro s0
    simp only [List.foldl_cons, ih, add_severity_total, List.length_cons]
    omega

theorem foldl_builder_issues (rs : List AnalyzerResult) :
    ∀ b : BuilderState,
      (rs.foldl add_analyzer_result b).issues
        = b.issues ++
            ((rs.filter (fun r => r.success)).map
              (fun r => r.issues.map convertIssue)).flatten := by
  induction rs with
  | nil => intro b; simp
  | cons r t ih =>
    intro b
    by_cases hr : r.success
    · simp [add_analyzer_result, hr, ih, List.filter_cons]
    · simp [add_analyzer_result, hr, ih, List.filter_cons]

theorem foldl_builder_tools (rs : List AnalyzerResult) :
    ∀ b : BuilderState,
      (rs.foldl add_analyzer_result b).tools_used
        = b.tools_used ++
            (rs.filter (fun r => r.success)).map (fun r => r.tool_name) := by
  induction rs with
  | nil => intro b; simp
  | cons r t ih =>
    intro b
    by_cases hr : r.success
    · simp [add_analyzer_result, hr, ih, List.filter_cons]
    · simp [add_analyzer_result, hr, ih, List.filter_cons]

theorem build_report_summary_total (results : List AnalyzerResult)
    (job_id generated_at : String) (repo : RepoInfo) (labels : List String)
    (duration_ms : Nat) :
    (build_report (results.foldl add_analyzer_result ⟨[], []⟩)
        job_id repo labels generated_at duration_ms).summary.total
      = ((results.filter (fun r => r.success)).map
          (fun r => r.issues.length)).sum := by
  unfold build_report
  dsimp only
  rw [foldl_add_severity_total, foldl_builder_issues]
  simp [List.length_flatten, Function.comp_def, List.map_map, List.length_map,
        SeveritySummary.total]

theorem build_report_meta_tools (results : List AnalyzerResult)
    (job_id generated_at : String) (repo : RepoInfo) (labels : List String)
    (duration_ms : Nat) :
    (build_report (results.foldl add_analyzer_result ⟨[], []⟩)
        job_id repo labels generated_at duration_ms).meta.tools
      = (results.filter (fun r => r.success)).map (fun r => r.tool_name) := by
  unfold build_report
  dsimp only
  rw [foldl_builder_tools]
  simp

/-- C4: for every list of `AnalyzerResult`s fed to the builder, the built
report's `summary.total()` equals the sum of `len(issues)` over exactly the
results with `success=true` — `success=false` results contribute zero
issues, and every issue of every successful result is counted once (so
duplicate findings across tools are each counted, no deduplication). -/
theorem c4_summary_total (results : List AnalyzerResult) (job_id generated_at : String)
    (repo : RepoInfo) (labels : List String) (duration_ms : Nat) :
    (build_report (results.foldl add_analyzer_result ⟨[], []⟩)
        job_id repo labels generated_at duration_ms).summary.total
      = ((results.filter (fun r => r.success)).map
          (fun r => r.issues.length)).sum :=
  build_report_summary_total results job_id generated_at repo labels duration_ms

theorem splitOnSlash_ne_nil (s : List Char) : splitOnSlash s ≠ [] := by
  cases s with
  | nil => simp [splitOnSlash]
  | cons x xs =>
    unfold splitOnSlash
    dsimp only
    by_cases h : x = '/'
    · simp [h]
    · rw [if_neg h]
      cases hr : splitOnSlash xs <;> simp

theorem mem_splitOnSlash_no_slash (s : List Char) :
    ∀ piece ∈ splitOnSlash s, '/' ∉ piece := by
  induction s with
  | nil =>
    intro piece hp
    simp [splitOnSlash] at hp
    subst hp
    simp
  | cons x xs ih =>
    intro piece hp
    unfold splitOnSlash at hp
    dsimp only at hp
    by_cases h : x = '/'
    · rw [if_pos h] at hp
      rcases List.mem_cons.mp hp with h1 | h1
      · subst h1; simp
      · exact ih piece h1
    · rw [if_neg h] at hp
      cases hr : splitOnSlash xs with
      | nil => exact absurd hr (splitOnSlash_ne_nil xs)
      | cons y ys =>
        rw [hr] at hp
        rcases List.mem_cons.mp hp with h1 | h1
        · subst h1
          intro hmem
          rcases List.mem_cons.mp hmem with h2 | h2
          · exact h h2.symm
          · refine ih y ?_ h2
            rw [hr]
            exact List.mem_cons_self y ys
        · refine ih piece ?_
          rw [hr]
          exact List.mem_cons_of_mem y h1

theorem path_parts_ne_nil (p : List Char) :
    ∀ piece ∈ path_parts p, piece ≠ [] := by
  intro piece hp
  have := (List.mem_filter.mp hp).2
  simpa using this

theorem path_parts_no_slash (p : List Char) :
    ∀ piece ∈ path_parts p, '/' ∉ piece := by
  intro piece hp
  exact mem_splitOnSlash_no_slash p piece (List.mem_filter.mp hp).1

theorem join_slash_not_abs (l : List (List Char)) (h0 : l ≠ [])
    (h1 : ∀ p ∈ l, p ≠ []) (h2 : ∀ p ∈ l, '/' ∉ p) :
    isabsC (join_slash l) = false := by
  cases l with
  | nil => exact absurd rfl h0
  | cons x xs =>
    have hx : x ≠ [] := h1 x (List.mem_cons_self x xs)
    have hxs : '/' ∉ x := h2 x (List.mem_cons_self x xs)
    cases x with
    | nil => exact absurd rfl hx
    | cons c cs =>
      have hc : (c == '/') = false := by
        refine beq_eq_false_iff_ne.mpr ?_
        intro hcc
        refine hxs ?_
        rw [hcc]
        exact List.mem_cons_self '/' cs
      cases xs with
      | nil => simpa [join_slash, isabsC] using hc
      | cons z zs => simpa [join_slash, isabsC] using hc

theorem commonPrefixLen_append_self :
    ∀ sl q : List (List Char), commonPrefixLen (sl ++ q) sl = sl.length := by
  intro sl
  induction sl with
  | nil => intro q; cases q <;> rfl
  | cons x xs ih =>
    intro q
    simp [commonPrefixLen, ih]

theorem relpathC_not_abs (p w : List Char) : isabsC (relpathC p w) = false := by
  unfold relpathC
  dsimp only
  by_cases h :
      List.replicate ((path_parts w).length - commonPrefixLen (path_parts p) (path_parts w))
          ['.', '.'] ++ (path_parts p).drop (commonPrefixLen (path_parts p) (path_parts w))
        = []
  · rw [if_pos h]; rfl
  · rw [if_neg h]
    refine join_slash_not_abs _ h ?_ ?_
    · intro piece hp
      rcases List.mem_append.mp hp with h1 | h1
      · have := List.eq_of_mem_replicate h1
        subst this
        simp
      · exact path_parts_ne_nil p piece (List.drop_subset _ _ h1)
    · intro piece hp
      rcases List.mem_append.mp hp with h1 | h1
      · have := List.eq_of_mem_replicate h1
        subst this
        decide
      · exact path_parts_no_slash p piece (List.drop_subset _ _ h1)

/-- C7, counterexample: an absolute path outside the workspace is NOT
passed through unchanged — POSIX `os.path.relpath` rewrites it to a
`..`-climbing relative path, so the `except ValueError` passthrough branch
of `_normalize_file_path` never fires. -/
theorem c7_counterexample :
    normalize_file_path "/etc/passwd" "/tmp/ws" ≠ "/etc/passwd" ∧
      isabs "/etc/passwd" = true ∧
      normalize_file_path "/etc/passwd" "/tmp/ws" = "../../etc/passwd" := by
  refine ⟨by decide, by decide, by decide⟩

/-- C7, amended: `_normalize_file_path` never raises (it is a total
function); a relative path is returned unchanged; an absolute path under
the workspace is rewritten to the workspace-relative path (the component
suffix below the workspace root); and the result is never absolute — an
absolute path outside the workspace is rewritten to a `..`-climbing
relative path rather than passed through unchanged. -/
theorem c7_path_normalization (file ws : String) :
    isabs (normalize_file_path file ws) = false ∧
      (isabs file = false → normalize_file_path file ws = file) ∧
      (∀ q : List (List Char), isabs file = true →
        path_parts file.data = path_parts ws.data ++ q → q ≠ [] →
        (normalize_file_path file ws).data = join_slash q) := by
  refine ⟨?_, ?_, ?_⟩
  · by_cases hf : isabs file
    · unfold normalize_file_path
      rw [if_pos hf]
      exact relpathC_not_abs file.data ws.data
    · unfold normalize_file_path
      rw [if_neg hf]
      simpa using hf
  · intro h
    unfold normalize_file_path
    rw [h]
    rfl
  · intro q habs hparts hq
    unfold normalize_file_path
    rw [habs]
    show relpathC file.data ws.data = join_slash q
    unfold relpathC
    dsimp only
    rw [hparts, commonPrefixLen_append_self]
    simp only [Nat.sub_self, List.replicate_zero, List.nil_append,
               List.drop_left]
    rw [if_neg hq]

theorem c7_witness :
    normalize_file_path "a/b.py" "/ws" = "a/b.py" ∧
      (normalize_file_path "/ws/a/b.py" "/ws").data
        = join_slash [['a'], ['b', '.', 'p', 'y']] ∧
      isabs (normalize_file_path "/etc/passwd" "/tmp/ws") = false := by
  refine ⟨(c7_path_normalization "a/b.py" "/ws").2.1 (by decide),
          (c7_path_normalization "/ws/a/b.py" "/ws").2.2
            [['a'], ['b', '.', 'p', 'y']] (by decide) (by decide) (by decide),
          (c7_path_normalization "/etc/passwd" "/tmp/ws").1⟩

theorem nodup_fst_eq {β : Type} :
    ∀ {l : List (String × β)}, (l.map Prod.fst).Nodup →
      ∀ {k : String} {b1 b2 : β}, (k, b1) ∈ l → (k, b2) ∈ l → b1 = b2 := by
  intro l
  induction l with
  | nil =>
    intro _ k b1 b2 h1 _
    exact absurd h1 (List.not_mem_nil _)
  | cons hd tl ih =>
    intro hnd k b1 b2 h1 h2
    rw [List.map_cons, List.nodup_cons] at hnd
    rcases List.mem_cons.mp h1 with e1 | m1
    · rcases List.mem_cons.mp h2 with e2 | m2
      · exact congrArg Prod.snd (e1.trans e2.symm)
      · exfalso
        refine hnd.1 ?_
        rw [← e1]
        exact List.mem_map.mpr ⟨(k, b2), m2, rfl⟩
    · rcases List.mem_cons.mp h2 with e2 | m2
      · exfalso
        refine hnd.1 ?_
        rw [← e2]
        exact List.mem_map.mpr ⟨(k, b1), m1, rfl⟩
      · exact ih hnd.2 m1 m2

theorem mem_insertSorted (a x : String) :
    ∀ l : List String, a ∈ insertSorted x l ↔ a = x ∨ a ∈ l := by
  intro l
  induction l with
  | nil => simp [insertSorted]
  | cons y ys ih =>
    unfold insertSorted
    by_cases h : x ≤ y
    · rw [if_pos h]
      simp
    · rw [if_neg h]
      simp [ih]
      tauto

theorem mem_sortStrings (a : String) :
    ∀ l : List String, a ∈ sortStrings l ↔ a ∈ l := by
  intro l
  induction l with
  | nil => simp [sortStrings]
  | cons x xs ih =>
    simp [sortStrings, mem_insertSorted, ih]

theorem mem_group_by_file (issues : List Issue) (i : Issue) (hi : i ∈ issues) :
    ∃ fi ∈ group_by_file issues, fi.path = i.file ∧ i ∈ fi.issues := by
  refine ⟨{ path := i.file, issues := issues.filter (fun x => x.file = i.file) },
          ?_, rfl, ?_⟩
  · unfold group_by_file
    refine List.mem_map.mpr ⟨i.file, ?_, rfl⟩
    rw [mem_sortStrings, List.mem_dedup]
    exact List.mem_map.mpr ⟨i, hi, rfl⟩
  · exact List.mem_filter.mpr ⟨hi, by simp⟩

theorem update_job_status_spec {s : OrchState} {j : String} {ji : JobInfo}
    (st : JobStatus) (a b c : Option String)
    (h : dictGet s.activeJobs j = some ji) :
    ∃ s', update_job_status s j st a b c = .ok s' ∧
      s'.savedReports = s.savedReports ∧
      (dictGet s'.activeJobs j).map JobInfo.status = some st := by
  unfold update_job_status
  rw [h]
  refine ⟨_, rfl, rfl, ?_⟩
  rw [dictGet_insert_self]
  rfl

theorem update_job_progress_savedReports (s : OrchState) (j : String)
    (ph : JobPhase) (pc : Nat) :
    (update_job_progress s j ph pc).savedReports = s.savedReports := by
  unfold update_job_progress
  cases dictGet s.activeJobs j <;> rfl

theorem update_job_progress_isSome (s : OrchState) (j : String)
    (ph : JobPhase) (pc : Nat) :
    (dictGet (update_job_progress s j ph pc).activeJobs j).isSome
      = (dictGet s.activeJobs j).isSome := by
  unfold update_job_progress
  cases h : dictGet s.activeJobs j with
  | none => simp [h]
  | some ji => simp [dictGet_insert_self]

theorem foldl_progress_inv {α : Type} (j : String) (f1 : α → JobPhase)
    (f2 : α → Nat) :
    ∀ (l : List α) (s : OrchState),
      ((l.foldl (fun acc p => update_job_progress acc j (f1 p) (f2 p)) s).savedReports
          = s.savedReports) ∧
        ((dictGet (l.foldl (fun acc p => update_job_progress acc j (f1 p) (f2 p)) s).activeJobs j).isSome
          = (dictGet s.activeJobs j).isSome) := by
  intro l
  induction l with
  | nil => intro s; exact ⟨rfl, rfl⟩
  | cons x xs ih =>
    intro s
    have h := ih (update_job_progress s j (f1 x) (f2 x))
    refine ⟨?_, ?_⟩
    · rw [List.foldl_cons, h.1, update_job_progress_savedReports]
    · rw [List.foldl_cons, h.2, update_job_progress_isSome]

/-- Symbolic run of the happy path of `_execute_job`: if the job is active
when the thread starts and the fetch succeeds, execution returns `.ok`, the
built report (from exactly the collected analyzer results) is persisted
under the job id, and the job's final status is Completed. -/
theorem execute_job_ok (s : OrchState) (j ws startedAt finishedAt genAt : String)
    (repo : RepoInfo) (labels : List String) (dur : Nat)
    (outcomes : List (String × Except String AnalyzerResult))
    (h : (dictGet s.activeJobs j).isSome) :
    ∃ s', execute_job s j ⟨.ok ws, outcomes⟩ startedAt finishedAt genAt repo labels dur
        = .ok s' ∧
      dictGet s'.savedReports j
        = some (build_report ((run_analyzers_collect outcomes).foldl add_analyzer_result ⟨[], []⟩)
            j repo labels genAt dur) ∧
      (dictGet s'.activeJobs j).map JobInfo.status = some JobStatus.completed := by
  obtain ⟨ji, hji⟩ := Option.isSome_iff_exists.mp h
  obtain ⟨s1, hs1, _, hst1⟩ :=
    update_job_status_spec (s := s) (j := j) JobStatus.running (some startedAt) none none hji
  have h1 : (dictGet s1.activeJobs j).isSome := by
    rw [Option.isSome_iff_exists]
    rcases ho : dictGet s1.activeJobs j with _ | ji1
    · rw [ho] at hst1; simp at hst1
    · exact ⟨ji1, rfl⟩
  unfold execute_job
  rw [hs1]
  set s2 := update_job_progress s1 j JobPhase.clone 10 with hs2
  have h2 : (dictGet s2.activeJobs j).isSome := by
    rw [hs2, update_job_progress_isSome]; exact h1
  dsimp only
  set s3 := update_job_progress s2 j JobPhase.clone 20 with hs3
  have h3 : (dictGet s3.activeJobs j).isSome := by
    rw [hs3, update_job_progress_isSome]; exact h2
  set names := outcomes.map Prod.fst with hnames
  set s4 := names.enum.foldl
    (fun acc p => update_job_progress acc j (analyze_phase p.2) (30 + 50 * p.1 / names.length)) s3
    with hs4
  have h4 : (dictGet s4.activeJobs j).isSome := by
    rw [hs4]
    rw [(foldl_progress_inv j (fun p => analyze_phase p.2)
          (fun p => 30 + 50 * p.1 / names.length) names.enum s3).2]
    exact h3
  set s5 := update_job_progress s4 j JobPhase.merge 85 with hs5
  have h5 : (dictGet s5.activeJobs j).isSome := by
    rw [hs5, update_job_progress_isSome]; exact h4
  set report := build_report ((run_analyzers_collect outcomes).foldl add_analyzer_result ⟨[], []⟩)
    j repo labels genAt dur with hreport
  set s6 := update_job_progress s5 j JobPhase.write 95 with hs6
  have h6 : (dictGet s6.activeJobs j).isSome := by
    rw [hs6, update_job_progress_isSome]; exact h5
  set s7 := save_report s6 j report with hs7
  have h7 : (dictGet s7.activeJobs j).isSome := h6
  obtain ⟨ji7, hji7⟩ := Option.isSome_iff_exists.mp h7
  obtain ⟨s8, hs8, hrep8, hst8⟩ :=
    update_job_status_spec (s := s7) (j := j) JobStatus.completed none (some finishedAt) none hji7
  refine ⟨s8, ?_, ?_, hst8⟩
  · exact hs8
  · rw [hrep8, hs7]
    unfold save_report
    dsimp only
    rw [dictGet_insert_self]

/-- C3: for every set of dispatched analyzers, the failure (exception or
timeout, i.e. an `Except.error` outcome of its future) of one analyzer
does not abort the siblings and does not fail the job: execution reaches
Completed, the failed analyzer's name is absent from the persisted report's
`meta.tools` (which lists exactly the successful results' tool names), the
failed analyzer contributes zero issues (the summary total counts only the
successful results' issues), and every issue of every successful collected
result appears in the report's `files` under its path (issue conversion in
the builder is the identity embedding, `convertIssue_id`).  Hypotheses:
each analyzer reports its own name in its result, and dispatched analyzer
names are distinct (analyzer selection draws them from registry keys). -/
theorem c3_analyzer_failure_isolated (s : OrchState)
    (job_id now ws startedAt finishedAt genAt : String)
    (repo : RepoInfo) (labels : List String) (dur : Nat)
    (outcomes : List (String × Except String AnalyzerResult))
    (name e : String)
    (hfail : (name, Except.error e) ∈ outcomes)
    (hnames : ∀ p ∈ outcomes, ∀ r : AnalyzerResult, p.2 = Except.ok r → r.tool_name = p.1)
    (hnodup : (outcomes.map Prod.fst).Nodup) :
    ∃ s', execute_job (submit_job s job_id now).1 job_id ⟨Except.ok ws, outcomes⟩
        startedAt finishedAt genAt repo labels dur = .ok s' ∧
      (dictGet s'.activeJobs job_id).map JobInfo.status = some JobStatus.completed ∧
      ∃ report, dictGet s'.savedReports job_id = some report ∧
        name ∉ report.meta.tools ∧
        report.meta.tools
          = ((run_analyzers_collect outcomes).filter (fun r => r.success)).map
              (fun r => r.tool_name) ∧
        report.summary.total
          = (((run_analyzers_collect outcomes).filter (fun r => r.success)).map
              (fun r => r.issues.length)).sum ∧
        (∀ r ∈ run_analyzers_collect outcomes, r.success = true →
          ∀ i ∈ r.issues, ∃ fi ∈ report.files, fi.path = i.file ∧ i ∈ fi.issues) := by
  have hpres : (dictGet (submit_job s job_id now).1.activeJobs job_id).isSome := by
    unfold submit_job
    dsimp only
    rw [dictGet_insert_self]
    rfl
  obtain ⟨s', hrun, hrep, hstat⟩ :=
    execute_job_ok (submit_job s job_id now).1 job_id ws startedAt finishedAt genAt
      repo labels dur outcomes hpres
  refine ⟨s', hrun, hstat, _, hrep, ?_, ?_, ?_, ?_⟩
  · rw [build_report_meta_tools]
    intro hmem
    obtain ⟨r, hrf, hrn⟩ := List.mem_map.mp hmem
    have hr : r ∈ run_analyzers_collect outcomes := (List.mem_filter.mp hrf).1
    unfold run_analyzers_collect at hr
    obtain ⟨p, hp, hpr⟩ := List.mem_filterMap.mp hr
    have hok : p.2 = Except.ok r := by
      cases hpe : p.2 with
      | error err => rw [hpe] at hpr; simp [Except.toOption] at hpr
      | ok v =>
        rw [hpe] at hpr
        simp [Except.toOption] at hpr
        rw [hpr]
    have hn : r.tool_name = p.1 := hnames p hp r hok
    have hpform : p = (name, Except.ok r) := by
      obtain ⟨p1, p2⟩ := p
      simp only at hn hok
      rw [Prod.mk.injEq]
      exact ⟨hn.symm.trans hrn, hok⟩
    rw [hpform] at hp
    have := nodup_fst_eq hnodup hp hfail
    simp at this
  · exact build_report_meta_tools ..
  · exact build_report_summary_total ..
  · intro r hr hsucc i hi
    have hb : convertIssue i ∈
        ((run_analyzers_collect outcomes).foldl add_analyzer_result ⟨[], []⟩).issues := by
      rw [foldl_builder_issues]
      refine List.mem_append_right _ ?_
      refine List.mem_flatten.mpr ⟨r.issues.map convertIssue, ?_, ?_⟩
      · exact List.mem_map.mpr ⟨r, List.mem_filter.mpr ⟨hr, by simp [hsucc]⟩, rfl⟩
      · exact List.mem_map.mpr ⟨i, hi, rfl⟩
    rw [convertIssue_id] at hb
    exact mem_group_by_file _ i hb

theorem c3_witness :
    let res : AnalyzerResult :=
      { tool_name := "semgrep", success := true,
        issues := [{ tool := "semgrep", type := "sql-injection",
                     message := "possible injection", severity := Severity.high,
                     file := "app/db.py", line := 10, rule_id := "r1",
                     suggestion := none }],
        duration_ms := 42, error_message := none }
    let outcomes : List (String × Except String AnalyzerResult) :=
      [("semgrep", Except.ok res), ("bandit", Except.error "boom")]
    ∃ s', execute_job (submit_job ⟨[], [], []⟩ "job-3" "t0").1 "job-3"
        ⟨Except.ok "ws", outcomes⟩ "t1" "t2" "t2" ⟨"github", none, none, none⟩ [] 0
        = .ok s' ∧
      (dictGet s'.activeJobs "job-3").map JobInfo.status = some JobStatus.completed ∧
      ∃ report, dictGet s'.savedReports "job-3" = some report ∧
        "bandit" ∉ report.meta.tools ∧
        report.meta.tools
          = ((run_analyzers_collect outcomes).filter (fun r => r.success)).map
              (fun r => r.tool_name) ∧
        report.summary.total
          = (((run_analyzers_collect outcomes).filter (fun r => r.success)).map
              (fun r => r.issues.length)).sum ∧
        (∀ r ∈ run_analyzers_collect outcomes, r.success = true →
          ∀ i ∈ r.issues, ∃ fi ∈ report.files, fi.path = i.file ∧ i ∈ fi.issues) := by
  intro res outcomes
  refine c3_analyzer_failure_isolated ⟨[], [], []⟩ "job-3" "t0" "ws" "t1" "t2" "t2"
    ⟨"github", none, none, none⟩ [] 0 outcomes "bandit" "boom"
    (List.mem_cons_of_mem _ (List.mem_cons_self _ _)) ?_ (by decide)
  intro p hp r hr
  rcases List.mem_cons.mp hp with h1 | h1
  · subst h1
    injection hr with h2
    rw [← h2]
  · rcases List.mem_cons.mp h1 with h2 | h2
    · subst h2
      exact absurd hr (by simp)
    · exact absurd h2 (List.not_mem_nil p)

end Scanner
